import Mathlib

/- Verification of the Minimal-AI-Workflow repository.

   Shallow embedding of src/workflow/parser.py (EmailParser),
   src/workflow/quote.py (QuoteGenerator) and the default configuration in
   src/main.py (WorkflowOrchestrator).

   Modelling conventions:
   - Python text is modelled as lists of characters (abbrev Txt), Python
     str.split / str.strip / regular-expression scanning as recursive
     functions on those lists.
   - Python floats are modelled as rationals; Python round(x, n) is
     round-half-to-even carried out exactly on rationals.
   - Python None is modelled with Option; a dict that may lack a key is
     modelled with a nested Option (none = key absent, some none = key
     present with value None).  -/

abbrev Txt := List Char

def txt (s : String) : Txt := s.data

/- The character class matched by the regex \s and stripped by str.strip,
   restricted to the ASCII range: space, tab, newline, vertical tab,
   form feed, carriage return. -/
def pyIsSpace (c : Char) : Bool := c.toNat = 32 || (9 ≤ c.toNat && c.toNat ≤ 13)

/- The regex word class \w in the ASCII range: letters, digits, underscore. -/
def isWordChar (c : Char) : Bool :=
  (97 ≤ c.toNat && c.toNat ≤ 122) || (65 ≤ c.toNat && c.toNat ≤ 90) ||
  (48 ≤ c.toNat && c.toNat ≤ 57) || c.toNat = 95

def isDigitChar (c : Char) : Bool := 48 ≤ c.toNat && c.toNat ≤ 57

/- ASCII case folding, as applied by str.lower and re.IGNORECASE on the
   inputs handled here. -/
def lowerChar (c : Char) : Char :=
  if 65 ≤ c.toNat && c.toNat ≤ 90 then Char.ofNat (c.toNat + 32) else c

def lowerTxt (s : Txt) : Txt := s.map lowerChar

/- Python str.strip(): drop whitespace from both ends. -/
def pyStrip (s : Txt) : Txt :=
  ((s.dropWhile pyIsSpace).reverse.dropWhile pyIsSpace).reverse

/- Price catalog entry: quote.py reads price_info["price"] and
   price_info.get("unit", "piece"). -/
structure PriceInfo where
  price : ℚ
  unit : Option String
deriving DecidableEq

abbrev PriceList := List (Txt × PriceInfo)

/- Python dict lookup (by key) over the insertion-ordered catalog;
   `name in price_list` corresponds to (lookupPrice pl name).isSome. -/
def lookupPrice : PriceList → Txt → Option PriceInfo
  | [], _ => none
  | (k, v) :: rest, n => if k = n then some v else lookupPrice rest n

/- One product mention, as built by EmailParser._extract_products
   (parser.py lines 127-133). -/
structure Mention where
  name : Txt
  quantity : Option ℚ
  unit : Option String
  confidence : ℚ
  notes : String
deriving DecidableEq

/- One discount tier (main.py lines 95-104): max_amount = none models the
   unbounded float("inf") upper end. -/
structure Tier where
  min_amount : ℚ
  max_amount : Option ℚ
  discount : ℚ

/- The configuration keys read by QuoteGenerator.__init__ (quote.py 20-21). -/
structure QuoteConfig where
  tax_rate : ℚ
  default_currency : String

structure LineItem where
  product : Txt
  quantity : ℚ
  unit_price : ℚ
  total : ℚ
  unit : String
deriving DecidableEq

/- The quote record emitted by QuoteGenerator (quote.py 96-109, 128-141),
   without the wall-clock fields timestamp and valid_until. -/
structure Quote where
  email_id : String
  status : String
  line_items : List LineItem
  subtotal : ℚ
  discount : ℚ
  tax : ℚ
  total : ℚ
  currency : Option String
  pending_reasons : List Txt
  discount_rate : ℚ

/- The fields of a parsed event read by QuoteGenerator.generate
   (quote.py 26-28).  currency = none models an event dict without the
   "currency" key; currency = some none models the key mapped to None,
   which is what EmailParser.parse_email always produces. -/
structure ParsedEventQ where
  email_id : String
  products : List Mention
  currency : Option (Option String)

/- Python round() ties-to-even, carried out exactly on rationals. -/
def roundHalfEvenInt (x : ℚ) : ℤ :=
  let n := ⌊x⌋
  let f := x - (n : ℚ)
  if f < 1/2 then n
  else if (1 : ℚ)/2 < f then n + 1
  else if n % 2 = 0 then n else n + 1

/- Python round(x, 2). -/
def round2 (x : ℚ) : ℚ := (roundHalfEvenInt (x * 100) : ℚ) / 100

/- Python round(x, 1). -/
def round1 (x : ℚ) : ℚ := (roundHalfEvenInt (x * 10) : ℚ) / 10

def sqChar : Char := Char.ofNat 39

/- The f-string of quote.py line 120 (the product name is quoted). -/
def unrecognizedReason (name : Txt) : Txt :=
  txt "Unrecognized product: " ++ (sqChar :: name) ++ [sqChar]

/- The f-string of quote.py line 123. -/
def missingQuantityReason (name : Txt) : Txt :=
  txt "Missing quantity for " ++ name

namespace QuoteGenerator

/- QuoteGenerator._can_generate_complete_quote (quote.py 38-52). -/
def can_generate_complete_quote (pl : PriceList) (products : List Mention) : Bool :=
  if products.isEmpty then false
  else products.all fun p => (lookupPrice pl p.name).isSome && p.quantity.isSome

/- The membership test of quote.py line 153: min_amount <= subtotal < max_amount. -/
def tierApplies (t : Tier) (subtotal : ℚ) : Bool :=
  decide (t.min_amount ≤ subtotal) &&
    (match t.max_amount with
     | some m => decide (subtotal < m)
     | none => true)

/- QuoteGenerator._calculate_discount_rate (quote.py 143-156): scan the tiers
   in the given order, return the discount of the first applicable tier,
   0.0 if none applies. -/
def calculate_discount_rate (tiers : List Tier) (subtotal : ℚ) : ℚ :=
  match tiers with
  | [] => 0
  | t :: rest =>
    if tierApplies t subtotal then t.discount else calculate_discount_rate rest subtotal

/- QuoteGenerator._generate_complete_quote (quote.py 54-109).  On this path
   every lookup succeeds and every quantity is present (guarded by
   _can_generate_complete_quote); the getD defaults are never reached. -/
def generate_complete_quote (pl : PriceList) (tiers : List Tier) (cfg : QuoteConfig)
    (email_id : String) (products : List Mention) (currency : Option String) : Quote :=
  let line_items := products.map fun p =>
    let pi := (lookupPrice pl p.name).getD ⟨0, none⟩
    let q := p.quantity.getD 0
    { product := p.name, quantity := q, unit_price := pi.price,
      total := pi.price * q, unit := pi.unit.getD "piece" }
  let subtotal := (line_items.map LineItem.total).sum
  let discount_rate := calculate_discount_rate tiers subtotal
  let discount_amount := subtotal * discount_rate
  let taxable_amount := subtotal - discount_amount
  let tax_amount := taxable_amount * cfg.tax_rate
  let total := subtotal - discount_amount + tax_amount
  { email_id := email_id, status := "complete", line_items := line_items,
    subtotal := round2 subtotal, discount := round2 discount_amount,
    tax := round2 tax_amount, total := round2 total, currency := currency,
    pending_reasons := [], discount_rate := round1 (discount_rate * 100) }

/- QuoteGenerator._generate_pending_quote (quote.py 111-141). -/
def generate_pending_quote (pl : PriceList) (email_id : String)
    (products : List Mention) (currency : Option String) : Quote :=
  let pending_reasons :=
    if products.isEmpty then [txt "No products identified in the inquiry"]
    else products.flatMap fun p =>
      (if lookupPrice pl p.name = none then [unrecognizedReason p.name] else []) ++
      (if p.quantity = none then [missingQuantityReason p.name] else [])
  { email_id := email_id, status := "pending", line_items := [], subtotal := 0,
    discount := 0, tax := 0, total := 0, currency := currency,
    pending_reasons := pending_reasons, discount_rate := 0 }

/- QuoteGenerator.generate (quote.py 24-36).  Note that
   parsed_event.get("currency", default) yields the stored value whenever the
   key is present, even when that value is None. -/
def generate (pl : PriceList) (tiers : List Tier) (cfg : QuoteConfig)
    (ev : ParsedEventQ) : Quote :=
  let currency : Option String :=
    match ev.currency with
    | none => some cfg.default_currency
    | some v => v
  if can_generate_complete_quote pl ev.products then
    generate_complete_quote pl tiers cfg ev.email_id ev.products currency
  else
    generate_pending_quote pl ev.email_id ev.products currency

end QuoteGenerator

/- The default discount table of WorkflowOrchestrator._get_default_discount_rules
   (src/main.py lines 95-104). -/
def defaultTiers : List Tier :=
  [⟨0, some 100, 1/20⟩, ⟨100, some 500, 1/10⟩, ⟨500, some 1000, 3/20⟩, ⟨1000, none, 1/5⟩]

theorem can_generate_complete_quote_iff (pl : PriceList) (ps : List Mention) :
    QuoteGenerator.can_generate_complete_quote pl ps = true ↔
      (ps.isEmpty = false ∧
        ∀ m ∈ ps, (lookupPrice pl m.name).isSome = true ∧ m.quantity.isSome = true) := by
  unfold QuoteGenerator.can_generate_complete_quote
  cases h : ps.isEmpty with
  | true => simp [h]
  | false => simp [h, List.all_eq_true]

/-- C1: for every parsed event, the quote emitted by QuoteGenerator.generate has
status "complete" exactly when the product list is non-empty, every mention
name is a key of the price catalog, and every mention quantity is present;
otherwise the quote has status "pending" and total 0. -/
theorem c1_complete_status_characterization (pl : PriceList) (tiers : List Tier)
    (cfg : QuoteConfig) (ev : ParsedEventQ) :
    ((QuoteGenerator.generate pl tiers cfg ev).status = "complete" ↔
      (ev.products.isEmpty = false ∧
        ∀ m ∈ ev.products, (lookupPrice pl m.name).isSome = true ∧ m.quantity.isSome = true)) ∧
    ((QuoteGenerator.generate pl tiers cfg ev).status = "complete" ∨
      ((QuoteGenerator.generate pl tiers cfg ev).status = "pending" ∧
        (QuoteGenerator.generate pl tiers cfg ev).total = 0)) := by
  unfold QuoteGenerator.generate
  cases h : QuoteGenerator.can_generate_complete_quote pl ev.products with
  | true =>
    refine ⟨?_, Or.inl rfl⟩
    simpa [QuoteGenerator.generate_complete_quote] using
      (can_generate_complete_quote_iff pl ev.products).mp h
  | false =>
    refine ⟨?_, Or.inr ⟨rfl, rfl⟩⟩
    constructor
    · intro hst
      exact absurd hst (by simp [QuoteGenerator.generate_pending_quote])
    · intro hcond
      exact absurd ((can_generate_complete_quote_iff pl ev.products).mpr hcond)
        (by simp [h])

/-- C1 witness: concrete instantiations of both directions of the
characterization. -/
theorem c1_complete_status_characterization_witness :
    (QuoteGenerator.generate [(txt "Widget Pro", ⟨25, some "piece"⟩)] defaultTiers
      ⟨19/200, "USD"⟩
      ⟨"e1", [⟨txt "Widget Pro", some 10, none, 1, "ok"⟩], some (some "USD")⟩).status
      = "complete" :=
  (c1_complete_status_characterization [(txt "Widget Pro", ⟨25, some "piece"⟩)]
    defaultTiers ⟨19/200, "USD"⟩
    ⟨"e1", [⟨txt "Widget Pro", some 10, none, 1, "ok"⟩], some (some "USD")⟩).1.mpr
    (by refine ⟨rfl, ?_⟩; intro m hm; simp at hm; subst hm; exact ⟨by decide, rfl⟩)

/-- C4: the discount rate is that of the first tier, in the given order, whose
half-open interval contains the subtotal (0 when no tier applies); under the
default four-tier table, 77.50 yields 5 percent, 200.00 yields 10 percent,
625.00 yields 15 percent and 1250.00 yields 20 percent. -/
theorem c4_discount_rate_first_applicable_tier :
    (∀ (tiers : List Tier) (s : ℚ),
      QuoteGenerator.calculate_discount_rate tiers s =
        ((tiers.find? fun t => QuoteGenerator.tierApplies t s).map Tier.discount).getD 0) ∧
    QuoteGenerator.calculate_discount_rate defaultTiers (155/2) = 1/20 ∧
    QuoteGenerator.calculate_discount_rate defaultTiers 200 = 1/10 ∧
    QuoteGenerator.calculate_discount_rate defaultTiers 625 = 3/20 ∧
    QuoteGenerator.calculate_discount_rate defaultTiers 1250 = 1/5 := by
  refine ⟨?_,
    by norm_num [QuoteGenerator.calculate_discount_rate, QuoteGenerator.tierApplies, defaultTiers],
    by norm_num [QuoteGenerator.calculate_discount_rate, QuoteGenerator.tierApplies, defaultTiers],
    by norm_num [QuoteGenerator.calculate_discount_rate, QuoteGenerator.tierApplies, defaultTiers],
    by norm_num [QuoteGenerator.calculate_discount_rate, QuoteGenerator.tierApplies, defaultTiers]⟩
  intro tiers s
  induction tiers with
  | nil => rfl
  | cons t rest ih =>
    unfold QuoteGenerator.calculate_discount_rate
    cases h : QuoteGenerator.tierApplies t s with
    | true => simp [List.find?, h]
    | false => simp [List.find?, h, ih]

theorem generate_pending_quote_reasons_ne_nil (pl : PriceList) (eid : String)
    (ps : List Mention) (cur : Option String)
    (h : QuoteGenerator.can_generate_complete_quote pl ps = false) :
    (QuoteGenerator.generate_pending_quote pl eid ps cur).pending_reasons ≠ [] := by
  unfold QuoteGenerator.generate_pending_quote
  cases hps : ps.isEmpty with
  | true => simp [hps]
  | false =>
    simp only [hps, Bool.false_eq_true, if_false, ne_eq]
    intro hnil
    rw [List.flatMap_eq_nil_iff] at hnil
    have hex : ∃ m ∈ ps, ¬((lookupPrice pl m.name).isSome = true ∧ m.quantity.isSome = true) := by
      by_contra hall
      push_neg at hall
      have hc : QuoteGenerator.can_generate_complete_quote pl ps = true :=
        (can_generate_complete_quote_iff pl ps).mpr ⟨hps, fun m hm => hall m hm⟩
      rw [h] at hc
      exact Bool.false_ne_true hc
    obtain ⟨m, hm, hviol⟩ := hex
    have hfm := hnil m hm
    rcases Classical.not_and_iff_or_not_not.mp hviol with hlk | hq
    · cases hlook : lookupPrice pl m.name with
      | some v => exact hlk (by simp [hlook])
      | none => simp [hlook] at hfm
    · cases hqty : m.quantity with
      | some v => exact hq (by simp [hqty])
      | none => simp [hqty] at hfm

/-- C2: the quote has a non-empty pending_reasons list exactly when its status
is "pending" and an empty one exactly when its status is "complete"; an empty
product list yields exactly the single reason "No products identified in the
inquiry", and otherwise every mention missing from the catalog or missing a
quantity contributes its reason. -/
theorem c2_pending_reasons_characterization (pl : PriceList) (tiers : List Tier)
    (cfg : QuoteConfig) (ev : ParsedEventQ) :
    ((QuoteGenerator.generate pl tiers cfg ev).pending_reasons.isEmpty = false ↔
      (QuoteGenerator.generate pl tiers cfg ev).status = "pending") ∧
    ((QuoteGenerator.generate pl tiers cfg ev).pending_reasons = [] ↔
      (QuoteGenerator.generate pl tiers cfg ev).status = "complete") ∧
    (ev.products = [] →
      (QuoteGenerator.generate pl tiers cfg ev).pending_reasons =
        [txt "No products identified in the inquiry"]) ∧
    ((QuoteGenerator.generate pl tiers cfg ev).status = "pending" →
      ∀ m ∈ ev.products,
        (lookupPrice pl m.name = none →
          unrecognizedReason m.name ∈ (QuoteGenerator.generate pl tiers cfg ev).pending_reasons) ∧
        (m.quantity = none →
          missingQuantityReason m.name ∈
            (QuoteGenerator.generate pl tiers cfg ev).pending_reasons)) := by
  unfold QuoteGenerator.generate
  cases h : QuoteGenerator.can_generate_complete_quote pl ev.products with
  | true =>
    refine ⟨?_, ?_, ?_, ?_⟩
    · simp [QuoteGenerator.generate_complete_quote]
    · simp [QuoteGenerator.generate_complete_quote]
    · intro he
      rw [he] at h
      simp [QuoteGenerator.can_generate_complete_quote] at h
    · intro hst
      simp [QuoteGenerator.generate_complete_quote] at hst
  | false =>
    have hne := generate_pending_quote_reasons_ne_nil pl ev.email_id ev.products
      (match ev.currency with | none => some cfg.default_currency | some v => v) h
    refine ⟨?_, ?_, ?_, ?_⟩
    · simp only [Bool.false_eq_true, if_false]
      constructor
      · intro _
        simp [QuoteGenerator.generate_pending_quote]
      · intro _
        simpa [List.isEmpty_iff] using hne
    · simp only [Bool.false_eq_true, if_false]
      constructor
      · intro hnil
        exact absurd hnil hne
      · intro hst
        simp [QuoteGenerator.generate_pending_quote] at hst
    · intro he
      simp [QuoteGenerator.generate_pending_quote, he]
    · intro _ m hm
      have hps : ev.products.isEmpty = false := by
        cases hps : ev.products with
        | nil => rw [hps] at hm; exact absurd hm (List.not_mem_nil m)
        | cons a l => simp [hps]
      constructor
      · intro hlook
        simp only [QuoteGenerator.generate_pending_quote, hps, Bool.false_eq_true, if_false]
        exact List.mem_flatMap.mpr ⟨m, hm, by simp [hlook]⟩
      · intro hq
        simp only [QuoteGenerator.generate_pending_quote, hps, Bool.false_eq_true, if_false]
        exact List.mem_flatMap.mpr ⟨m, hm, by simp [hq]⟩

/-- C2 witness: on a concrete event with an empty product list the emitted
pending_reasons list is exactly the single no-products entry, and on a concrete
event with an unknown product and a missing quantity both per-mention reasons
appear. -/
theorem c2_pending_reasons_characterization_witness :
    (QuoteGenerator.generate [] defaultTiers ⟨19/200, "USD"⟩
        ⟨"e2", [], some (some "USD")⟩).pending_reasons =
      [txt "No products identified in the inquiry"] ∧
    unrecognizedReason (txt "Custom Product") ∈
      (QuoteGenerator.generate [] defaultTiers ⟨19/200, "USD"⟩
        ⟨"e3", [⟨txt "Custom Product", none, none, 1, "n"⟩], some (some "USD")⟩).pending_reasons ∧
    missingQuantityReason (txt "Custom Product") ∈
      (QuoteGenerator.generate [] defaultTiers ⟨19/200, "USD"⟩
        ⟨"e3", [⟨txt "Custom Product", none, none, 1, "n"⟩], some (some "USD")⟩).pending_reasons := by
  refine ⟨(c2_pending_reasons_characterization [] defaultTiers ⟨19/200, "USD"⟩
      ⟨"e2", [], some (some "USD")⟩).2.2.1 rfl, ?_, ?_⟩
  · exact ((c2_pending_reasons_characterization [] defaultTiers ⟨19/200, "USD"⟩
      ⟨"e3", [⟨txt "Custom Product", none, none, 1, "n"⟩], some (some "USD")⟩).2.2.2 rfl
      ⟨txt "Custom Product", none, none, 1, "n"⟩ (by simp)).1 rfl
  · exact ((c2_pending_reasons_characterization [] defaultTiers ⟨19/200, "USD"⟩
      ⟨"e3", [⟨txt "Custom Product", none, none, 1, "n"⟩], some (some "USD")⟩).2.2.2 rfl
      ⟨txt "Custom Product", none, none, 1, "n"⟩ (by simp)).2 rfl

/-- C5 counterexample: for an event that carries the currency key with value
None (exactly what EmailParser.parse_email produces when no currency code is
found), the emitted quote's currency is None, not the configured default
"USD"; the claim as stated is false on this input. -/
theorem c5_currency_counterexample :
    (QuoteGenerator.generate [] defaultTiers ⟨19/200, "USD"⟩
        ⟨"e5", [], some none⟩).currency = none ∧
    decide ((QuoteGenerator.generate [] defaultTiers ⟨19/200, "USD"⟩
        ⟨"e5", [], some none⟩).currency = some "USD") = false := by
  exact ⟨rfl, by decide⟩

/-- C5 amended: the quote's currency equals the stored currency value whenever
the event carries a currency key, a stored None being copied as None (the
extractor case when no code occurs in the text); the configured default
currency is used only when the event has no currency key at all. -/
theorem c5_currency_amended (pl : PriceList) (tiers : List Tier) (cfg : QuoteConfig)
    (eid : String) (ps : List Mention) :
    (∀ c : String,
      (QuoteGenerator.generate pl tiers cfg ⟨eid, ps, some (some c)⟩).currency = some c) ∧
    (QuoteGenerator.generate pl tiers cfg ⟨eid, ps, none⟩).currency =
      some cfg.default_currency ∧
    (QuoteGenerator.generate pl tiers cfg ⟨eid, ps, some none⟩).currency = none := by
  refine ⟨fun c => ?_, ?_, ?_⟩ <;>
    · unfold QuoteGenerator.generate
      cases h : QuoteGenerator.can_generate_complete_quote pl ps <;>
        simp [QuoteGenerator.generate_complete_quote, QuoteGenerator.generate_pending_quote]

/- Python content.split(chr(10)), keeping empty segments. -/
def splitLines : Txt → List Txt
  | [] => [[]]
  | c :: cs =>
    if c = '\n' then [] :: splitLines cs
    else
      match splitLines cs with
      | [] => [[c]]
      | l :: ls => (c :: l) :: ls

/- Python (chr(10)).join(lines). -/
def joinLines : List Txt → Txt
  | [] => []
  | [l] => l
  | l :: ls => l ++ '\n' :: joinLines ls

/- The quoted-reply filter of parser.py line 58: keep a line unless its
   stripped form starts with the quote marker or the bar marker. -/
def keepLine (line : Txt) : Bool :=
  match pyStrip line with
  | [] => true
  | c :: _ => !(c = '>' || c = '|')

/- Index of the first occurrence of a literal pattern, none if absent. -/
def findSub (pat : Txt) : Txt → Option Nat
  | [] => if pat.isEmpty then some 0 else none
  | c :: cs => if pat.isPrefixOf (c :: cs) then some 0 else (findSub pat cs).map (· + 1)

/- Does the signature marker of the regex of parser.py line 66 match here:
   two dashes whose following maximal whitespace run contains a newline. -/
def dashHead : Txt → Bool
  | '-' :: '-' :: t => (t.takeWhile pyIsSpace).contains '\n'
  | _ => false

def findDashIdx : Txt → Option Nat
  | [] => none
  | c :: cs => if dashHead (c :: cs) then some 0 else (findDashIdx cs).map (· + 1)

/- re.sub(literal + ".*", "", s, flags=IGNORECASE|DOTALL): with DOTALL the
   match runs to the end of the string, so the substitution truncates at the
   first case-insensitive occurrence of the literal. -/
def subLiteralCI (pat : Txt) (s : Txt) : Txt :=
  match findSub pat (lowerTxt s) with
  | none => s
  | some i => s.take i

/- re.sub for the signature pattern of parser.py line 66 (two dashes, optional
   whitespace, newline, then everything): truncate at the first match. -/
def subDash (s : Txt) : Txt :=
  match findDashIdx s with
  | none => s
  | some i => s.take i

/- EmailParser._clean_content (parser.py 51-76): drop quoted lines, apply the
   five signature substitutions in order, strip the result. -/
def clean_content (content : Txt) : Txt :=
  let kept := joinLines ((splitLines content).filter keepLine)
  let t1 := subDash kept
  let t2 := subLiteralCI (txt "best regards,") t1
  let t3 := subLiteralCI (txt "sincerely,") t2
  let t4 := subLiteralCI (txt "thank you,") t3
  let t5 := subLiteralCI (txt "regards,") t4
  pyStrip t5

/- Word boundary after a match whose last character is a word character. -/
def wordBoundaryAfter : Txt → Bool
  | [] => true
  | c :: _ => !isWordChar c

/- The urgency vocabulary of parser.py line 23, in alternation order. -/
def urgencyKeywords : List Txt :=
  [txt "asap", txt "urgent", txt "rush", txt "immediate", txt "quick", txt "fast"]

def highUrgency : List Txt := [txt "asap", txt "urgent", txt "rush", txt "immediate"]

def mediumUrgency : List Txt := [txt "quick", txt "fast"]

/- One attempt of the urgency regex at the current position (the caller has
   checked the leading word boundary): alternatives in pattern order, each with
   its trailing word boundary. -/
def uMatch (s : Txt) : Option Txt :=
  urgencyKeywords.findSome? fun kw =>
    if kw.isPrefixOf s ∧ wordBoundaryAfter (s.drop kw.length) = true then some kw else none

/- re.findall of the urgency pattern: left-to-right scan, resuming after each
   match; prevWord tracks whether the previous character is a word character
   (for the leading word boundary).  The structural fuel argument makes the
   recursion kernel-reducible; every step consumes at least one character, so
   fuel equal to the text length never runs out. -/
def uScan : Nat → Bool → Txt → List Txt
  | 0, _, _ => []
  | _ + 1, _, [] => []
  | fuel + 1, prevWord, c :: cs =>
    match (if prevWord then none else uMatch (c :: cs)) with
    | some kw => kw :: uScan fuel true ((c :: cs).drop (Nat.max kw.length 1))
    | none => uScan fuel (isWordChar c) cs

def urgencyFindall (content : Txt) : List Txt :=
  uScan (lowerTxt content).length false (lowerTxt content)

/- The tier loop of parser.py 253-258. -/
def urgencyLoop : List Txt → String
  | [] => "low"
  | m :: rest =>
    if highUrgency.contains m then "high"
    else if mediumUrgency.contains m then "medium"
    else urgencyLoop rest

/- EmailParser._extract_urgency (parser.py 242-259). -/
def extract_urgency (content : Txt) : Option String :=
  match urgencyFindall content with
  | [] => none
  | ms => some (urgencyLoop ms)

/- The currency whitelist of parser.py line 22. -/
def currencyCodes : List String := ["USD", "EUR", "GBP", "CAD", "AUD", "JPY"]

def cMatch (s : Txt) : Option String :=
  currencyCodes.findSome? fun code =>
    if (lowerTxt (txt code)).isPrefixOf (lowerTxt s) ∧
        wordBoundaryAfter (s.drop (txt code).length) = true then some code else none

def cScan : Bool → Txt → Option String
  | _, [] => none
  | prevWord, c :: cs =>
    match (if prevWord then none else cMatch (c :: cs)) with
    | some code => some code
    | none => cScan (isWordChar c) cs

/- EmailParser._extract_currency (parser.py 261-268): first match of the
   whitelist pattern, uppercased (the match is returned in canonical form,
   which equals its .upper()). -/
def extract_currency (content : Txt) : Option String := cScan false content

/- The unit alternatives of the quantity pattern (parser.py line 24), in
   alternation order: each is a lowercase stem with an optional trailing s. -/
def unitStems : List Txt :=
  [txt "pc", txt "piece", txt "unit", txt "kit", txt "pack", txt "boxe", txt "set"]

/- The optional unit group of the quantity pattern at the current position
   (text already lowercased): alternatives in pattern order, the trailing s
   tried greedily first, each candidate checked against the trailing word
   boundary of the whole pattern; returns the number of characters consumed. -/
def qUnit (r : Txt) : Option Nat :=
  unitStems.findSome? fun stem =>
    if (stem ++ ['s']).isPrefixOf r ∧ wordBoundaryAfter (r.drop (stem.length + 1)) = true then
      some (stem.length + 1)
    else if stem.isPrefixOf r ∧ wordBoundaryAfter (r.drop stem.length) = true then
      some stem.length
    else none

/- Match the suffix \s*(?:unit)?\b of the quantity pattern, entered right
   after the numeric group (so the previous character is a digit): the greedy
   whitespace run is consumed, then the unit alternatives, then the empty unit
   with the word boundary, backtracking the whitespace run one character at a
   time; only the run length 0 can then still produce a boundary (digit before,
   whitespace after).  Returns the number of characters consumed, none when no
   amount of backtracking completes the match. -/
def qTail (r : Txt) : Option Nat :=
  let ws := r.takeWhile pyIsSpace
  let rest := r.drop ws.length
  match qUnit rest with
  | some u => some (ws.length + u)
  | none =>
    if ws.isEmpty then
      match rest with
      | [] => some 0
      | c :: _ => if isWordChar c then none else some 0
    else
      match rest with
      | [] => some 0
      | c :: _ => if isWordChar c then some ws.length else some 0

/- One attempt of the quantity pattern (parser.py line 24) at the current
   position (the caller has checked the leading word boundary and that the
   first character is a digit): returns the captured numeric group and the
   total number of characters consumed.  When the suffix cannot be completed
   after a fractional part the engine backtracks out of the optional fraction
   and the match ends after the integer digits (the dot then supplies the
   trailing word boundary). -/
def qMatchLen (s : Txt) : Option (Txt × Nat) :=
  let d1 := s.takeWhile isDigitChar
  if d1.isEmpty then none
  else
    let r1 := s.drop d1.length
    match r1 with
    | '.' :: r2 =>
      let d2 := r2.takeWhile isDigitChar
      if d2.isEmpty then
        match qTail r1 with
        | some t => some (d1, d1.length + t)
        | none => none
      else
        match qTail (r2.drop d2.length) with
        | some t => some (d1 ++ '.' :: d2, d1.length + 1 + d2.length + t)
        | none => some (d1, d1.length)
    | _ =>
      match qTail r1 with
      | some t => some (d1, d1.length + t)
      | none => none

/- re.findall of the quantity pattern over lowercased text: scan left to
   right, resume after each match end, track the word-character status of the
   previous character for the leading boundary.  The structural fuel argument
   makes the recursion kernel-reducible; every step consumes at least one
   character, so fuel equal to the text length never runs out. -/
def qScan : Nat → Bool → Txt → List Txt
  | 0, _, _ => []
  | _ + 1, _, [] => []
  | fuel + 1, prevWord, c :: cs =>
    if !prevWord && isDigitChar c then
      match qMatchLen (c :: cs) with
      | some (g, n) =>
        let n' := Nat.max n 1
        g :: qScan fuel (isWordChar (((c :: cs).take n').getLastD ' ')) ((c :: cs).drop n')
      | none => qScan fuel (isWordChar c) cs
    else qScan fuel (isWordChar c) cs

def qFindall (s : Txt) : List Txt := qScan (lowerTxt s).length false (lowerTxt s)

def digitsToNat (ds : Txt) : Nat := ds.foldl (fun n c => n * 10 + (c.toNat - 48)) 0

/- float() applied to a captured group of shape \d+(\.\d+)?, exact as a
   rational. -/
def parseDecimal (g : Txt) : ℚ :=
  let ip := g.takeWhile fun c => !(c = '.')
  let fp := g.drop (ip.length + 1)
  (digitsToNat ip : ℚ) + (digitsToNat fp : ℚ) / (10 : ℚ) ^ fp.length

def containsSub (pat : Txt) (s : Txt) : Bool := (findSub pat (lowerTxt s)).isSome

/- EmailParser._extract_unit (parser.py 191-207): re.search of each unit
   pattern, in order, anywhere in the text (no word boundaries, so e.g. the
   two letters of the pc stem anywhere suffice); the quantity argument of the
   Python function is ignored by its body. -/
def extract_unit (t : Txt) : Option String :=
  if containsSub (txt "pc") t || containsSub (txt "piece") t then some "piece"
  else if containsSub (txt "kit") t then some "kit"
  else if containsSub (txt "pack") t then some "pack"
  else if containsSub (txt "boxe") t then some "box"
  else if containsSub (txt "set") t then some "set"
  else if containsSub (txt "unit") t then some "unit"
  else none

/- EmailParser._extract_quantity_near_position (parser.py 169-189): fixed
   50-character windows before and after the position; last quantity of the
   before-window wins, else first of the after-window; the unit is searched in
   the corresponding window. -/
def extract_quantity_near_position (text : Txt) (position : Nat) :
    Option ℚ × Option String :=
  let before_text := (text.take position).drop (position - 50)
  let after_text := (text.drop position).take 50
  match (qFindall before_text).getLast? with
  | some g => (some (parseDecimal g), extract_unit before_text)
  | none =>
    match (qFindall after_text).head? with
    | some g => (some (parseDecimal g), extract_unit after_text)
    | none => (none, none)

/- re.finditer of a case-insensitively matched literal: non-overlapping
   occurrence start positions, left to right (needle and haystack are passed
   lowercased).  For an empty needle the final empty match at end of string is
   irrelevant here and omitted. -/
def findOcc (needle : Txt) : Nat → Txt → Nat → List Nat
  | 0, _, _ => []
  | _ + 1, [], _ => []
  | fuel + 1, c :: cs, i =>
    if needle.isEmpty then i :: findOcc needle fuel cs (i + 1)
    else if needle.isPrefixOf (c :: cs) then
      i :: findOcc needle fuel (List.drop (needle.length - 1) cs) (i + needle.length)
    else findOcc needle fuel cs (i + 1)

def product_names (pl : PriceList) : List Txt := pl.map Prod.fst

/- EmailParser._find_products_in_line (parser.py 151-167). -/
def find_products_in_line (pl : PriceList) (line : Txt) :
    List (Txt × Option ℚ × Option String) :=
  (product_names pl).flatMap fun product_name =>
    (findOcc (lowerTxt product_name) (lowerTxt line).length (lowerTxt line) 0).map fun p =>
      let qu := extract_quantity_near_position line p
      (product_name, qu.1, qu.2)

/- EmailParser._calculate_product_confidence (parser.py 209-225). -/
def calculate_product_confidence (names : List Txt) (product_name : Txt)
    (quantity : Option ℚ) (context : Txt) : ℚ :=
  let c1 : ℚ := 1/2
  let c2 := c1 + (if names.contains product_name then 3/10 else 0)
  let c3 := c2 + (if quantity.isSome then 1/5 else 0)
  let c4 := c3 + (if 10 < (pyStrip context).length then 1/10 else 0)
  min c4 1

/- EmailParser._generate_product_notes (parser.py 227-240). -/
def generate_product_notes (quantity : Option ℚ) (unit : Option String) : String :=
  match quantity, unit with
  | none, none => "Quantity not specified; Unit not specified"
  | none, some _ => "Quantity not specified"
  | some _, none => "Unit not specified"
  | some _, some _ => "Complete information extracted"

def mkMention (pl : PriceList) (context : Txt)
    (r : Txt × Option ℚ × Option String) : Mention :=
  { name := r.1, quantity := r.2.1, unit := r.2.2,
    confidence := calculate_product_confidence (product_names pl) r.1 r.2.1 context,
    notes := generate_product_notes r.2.1 r.2.2 }

/- EmailParser._extract_products (parser.py 109-149): per-line scan over
   stripped non-empty lines, whole-content fallback when no line produced a
   mention. -/
def extract_products (pl : PriceList) (content : Txt) : List Mention :=
  let fromLines := (splitLines content).flatMap fun line =>
    let line' := pyStrip line
    if line'.isEmpty then []
    else (find_products_in_line pl line').map (mkMention pl line')
  if fromLines.isEmpty then (find_products_in_line pl content).map (mkMention pl content)
  else fromLines

def lowConfidenceGap (name : Txt) : Txt :=
  txt "Low confidence in " ++ name ++ txt " extraction"

/- EmailParser._identify_gaps (parser.py 270-289), with the sender dict
   abstracted to the only field it reads, its confidence. -/
def identify_gaps (products : List Mention) (sender_confidence : ℚ) : List Txt :=
  (if sender_confidence < 7/10 then [txt "Unclear sender information"] else []) ++
  (if products.isEmpty then [txt "No products identified"]
   else products.flatMap fun p =>
     (if p.quantity = none then [txt "Missing quantity for " ++ p.name] else []) ++
     (if p.confidence < 3/5 then [lowConfidenceGap p.name] else []))

theorem uMatch_mem_keywords (s : Txt) (kw : Txt) (h : uMatch s = some kw) :
    kw ∈ urgencyKeywords := by
  obtain ⟨a, ha, hf⟩ := List.exists_of_findSome?_eq_some h
  by_cases hc : a.isPrefixOf s = true ∧ wordBoundaryAfter (s.drop a.length) = true
  · rw [if_pos hc] at hf
    exact (Option.some.inj hf) ▸ ha
  · rw [if_neg hc] at hf
    cases hf

theorem uScan_mem (fuel : Nat) (pw : Bool) (s : Txt) (kw : Txt)
    (h : kw ∈ uScan fuel pw s) : kw ∈ urgencyKeywords := by
  induction fuel generalizing pw s with
  | zero => cases h
  | succ fuel ih =>
    cases s with
    | nil => cases h
    | cons c cs =>
      rw [uScan] at h
      cases hm : (if pw then none else uMatch (c :: cs)) with
      | none => rw [hm] at h; exact ih _ _ h
      | some kw2 =>
        rw [hm] at h
        rcases List.mem_cons.mp h with h1 | h2
        · have hu : uMatch (c :: cs) = some kw2 := by
            cases pw with
            | true => cases hm
            | false => exact hm
          exact h1 ▸ uMatch_mem_keywords (c :: cs) kw2 hu
        · exact ih _ _ h2

/- The tier of one matched keyword, as the specification words it: the first
   matched occurrence decides, high keywords give "high", medium keywords give
   "medium", anything else in the vocabulary would give "low". -/
def firstMatchTier (kw : Txt) : String :=
  if highUrgency.contains kw then "high"
  else if mediumUrgency.contains kw then "medium"
  else "low"

theorem extract_urgency_eq_first (content : Txt) :
    extract_urgency content = (urgencyFindall content).head?.map firstMatchTier := by
  unfold extract_urgency
  cases h : urgencyFindall content with
  | nil => simp
  | cons kw rest =>
    have hkw : kw ∈ urgencyKeywords := by
      refine uScan_mem (lowerTxt content).length false (lowerTxt content) kw ?_
      have : kw ∈ urgencyFindall content := by rw [h]; exact List.mem_cons_self kw rest
      simpa [urgencyFindall] using this
    simp only [List.head?, Option.map_some]
    have : urgencyLoop (kw :: rest) = firstMatchTier kw := by
      fin_cases hkw <;> rfl
    rw [this]
    rfl

/-- C6: urgency extraction returns the tier of the first urgency-keyword match
in text order (the list of matches of the urgency pattern over the lowercased
text): "high" when that first keyword is in the high set, "medium" when it is
in the medium set, "low" for any other vocabulary word, and none when the text
has no match at all; a higher tier occurring later never overrides the first
occurrence. -/
theorem c6_urgency_tier_of_first_match (content : Txt) :
    extract_urgency content = (urgencyFindall content).head?.map firstMatchTier :=
  extract_urgency_eq_first content

/-- C9: urgency extraction only ever returns none, "high" or "medium"; the
"low" branch of the tier table is unreachable because every word of the
urgency vocabulary is in the high or medium set. -/
theorem c9_urgency_never_low (content : Txt) :
    extract_urgency content ∈ [(none : Option String), some "high", some "medium"] := by
  rw [extract_urgency_eq_first content]
  cases h : (urgencyFindall content).head? with
  | none => simp
  | some kw =>
    have hkw : kw ∈ urgencyKeywords := by
      cases hh : urgencyFindall content with
      | nil => rw [hh] at h; cases h
      | cons a rest =>
        rw [hh] at h
        have ha : kw = a := by simpa [List.head?] using h.symm
        refine uScan_mem (lowerTxt content).length false (lowerTxt content) kw ?_
        have : kw ∈ urgencyFindall content := by
          rw [hh, ha]; exact List.mem_cons_self a rest
        simpa [urgencyFindall] using this
    fin_cases hkw <;> decide

theorem parseDecimal_nonneg (g : Txt) : 0 ≤ parseDecimal g := by
  unfold parseDecimal
  positivity

/-- C10: every quantity attached to a product mention is either absent or a
non-negative rational: the quantity pattern captures only unsigned digit
groups with an optional decimal part, so the parsed value is non-negative. -/
theorem c10_extracted_quantity_nonneg (text : Txt) (position : Nat) (q : ℚ)
    (h : (extract_quantity_near_position text position).1 = some q) : 0 ≤ q := by
  unfold extract_quantity_near_position at h
  dsimp only at h
  split at h
  · simp only [Prod.fst] at h
    exact (Option.some.inj h) ▸ parseDecimal_nonneg _
  · split at h
    · simp only [Prod.fst] at h
      exact (Option.some.inj h) ▸ parseDecimal_nonneg _
    · cases h

/-- C10 witness: the quantity extracted before the product position in a
concrete text is the parsed group "10", which is non-negative. -/
theorem c10_extracted_quantity_nonneg_witness : 0 ≤ parseDecimal (txt "10") :=
  c10_extracted_quantity_nonneg (txt "Need 10 Widget Pro") 8 (parseDecimal (txt "10")) rfl

theorem mem_find_products_in_line (pl : PriceList) (line : Txt)
    (r : Txt × Option ℚ × Option String) (h : r ∈ find_products_in_line pl line) :
    r.1 ∈ product_names pl := by
  unfold find_products_in_line at h
  obtain ⟨pn, hpn, hr⟩ := List.mem_flatMap.mp h
  obtain ⟨p, _, hre⟩ := List.mem_map.mp hr
  subst hre
  exact hpn

theorem mem_extract_products (pl : PriceList) (content : Txt) (m : Mention)
    (h : m ∈ extract_products pl content) :
    ∃ ctx r, r ∈ find_products_in_line pl ctx ∧ m = mkMention pl ctx r := by
  unfold extract_products at h
  dsimp only at h
  split at h
  · obtain ⟨r, hr, hm⟩ := List.mem_map.mp h
    exact ⟨content, r, hr, hm.symm⟩
  · obtain ⟨line, hline, hm2⟩ := List.mem_flatMap.mp h
    by_cases he : (pyStrip line).isEmpty = true
    · rw [if_pos he] at hm2
      cases hm2
    · rw [if_neg he] at hm2
      obtain ⟨r, hr, hm⟩ := List.mem_map.mp hm2
      exact ⟨pyStrip line, r, hr, hm.symm⟩

theorem confidence_ge_of_name (names : List Txt) (pn : Txt) (q : Option ℚ) (ctx : Txt)
    (h : pn ∈ names) : 4/5 ≤ calculate_product_confidence names pn q ctx := by
  unfold calculate_product_confidence
  dsimp only
  have hc : names.contains pn = true := List.elem_iff.mpr h
  rw [le_min_iff]
  refine ⟨?_, by norm_num⟩
  rw [if_pos hc]
  have b1 : (0 : ℚ) ≤ (if q.isSome = true then (1 : ℚ)/5 else 0) := by
    split_ifs <;> norm_num
  have b2 : (0 : ℚ) ≤ (if 10 < (pyStrip ctx).length then (1 : ℚ)/10 else 0) := by
    split_ifs <;> norm_num
  linarith

theorem extract_products_confidence (pl : PriceList) (content : Txt) (m : Mention)
    (h : m ∈ extract_products pl content) : 4/5 ≤ m.confidence := by
  obtain ⟨ctx, r, hr, hm⟩ := mem_extract_products pl content m h
  have hn : r.1 ∈ product_names pl := mem_find_products_in_line pl ctx r hr
  rw [hm]
  exact confidence_ge_of_name (product_names pl) r.1 r.2.1 ctx hn

theorem lowconf_prefix_aux (x y : Txt) (a b : Char) (hne : (a == b) = false) :
    (a :: x).isPrefixOf (b :: y) = false := by
  simp [List.isPrefixOf, hne]

/-- C8: every mention produced by the extractor has confidence at least 0.8
(base 0.5 plus the always-true catalog-name bonus 0.3), so the 0.6 threshold
is never crossed and no gap of the form "Low confidence in ... extraction"
ever appears in the gap list derived from extractor output, whatever the
sender confidence. -/
theorem c8_no_low_confidence_gap (pl : PriceList) (content : Txt) (sc : ℚ) :
    ((extract_products pl content).all fun m => decide ((4 : ℚ)/5 ≤ m.confidence)) = true ∧
    ((identify_gaps (extract_products pl content) sc).all
      fun g => !((txt "Low confidence in ").isPrefixOf g)) = true := by
  constructor
  · rw [List.all_eq_true]
    intro m hm
    exact decide_eq_true (extract_products_confidence pl content m hm)
  · rw [List.all_eq_true]
    intro g hg
    unfold identify_gaps at hg
    rcases List.mem_append.mp hg with h1 | h2
    · by_cases hs : sc < 7/10
      · rw [if_pos hs] at h1
        have hge := List.mem_singleton.mp h1
        subst hge
        decide
      · rw [if_neg hs] at h1
        cases h1
    · by_cases hpe : (extract_products pl content).isEmpty = true
      · rw [if_pos hpe] at h2
        have hge := List.mem_singleton.mp h2
        subst hge
        decide
      · rw [if_neg hpe] at h2
        obtain ⟨p, hp, hg2⟩ := List.mem_flatMap.mp h2
        have hconf := extract_products_confidence pl content p hp
        have hnl : ¬(p.confidence < 3/5) := by
          intro hlt
          linarith
        rw [if_neg hnl, List.append_nil] at hg2
        by_cases hq : p.quantity = none
        · rw [if_pos hq] at hg2
          have hge := List.mem_singleton.mp hg2
          subst hge
          have e1 : txt "Low confidence in " = 'L' :: txt "ow confidence in " := rfl
          have e2 : txt "Missing quantity for " ++ p.name
              = 'M' :: (txt "issing quantity for " ++ p.name) := rfl
          rw [e1, e2, lowconf_prefix_aux _ _ _ _ (by decide)]
          rfl
        · rw [if_neg hq] at hg2
          cases hg2

theorem splitLines_ne_nil (s : Txt) : splitLines s ≠ [] := by
  cases s with
  | nil => simp [splitLines]
  | cons c cs =>
    unfold splitLines
    split
    · simp
    · split <;> simp

theorem joinLines_splitLines (s : Txt) : joinLines (splitLines s) = s := by
  induction s with
  | nil => rfl
  | cons c cs ih =>
    unfold splitLines
    by_cases hc : c = '\n'
    · rw [if_pos hc]
      cases hsp : splitLines cs with
      | nil => exact absurd hsp (splitLines_ne_nil cs)
      | cons l ls =>
        rw [hsp] at ih
        simp only [joinLines, List.nil_append]
        rw [ih, hc]
    · rw [if_neg hc]
      cases hsp : splitLines cs with
      | nil => exact absurd hsp (splitLines_ne_nil cs)
      | cons l ls =>
        rw [hsp] at ih
        cases ls with
        | nil =>
          simp only [joinLines] at ih ⊢
          rw [ih]
        | cons l2 ls2 =>
          simp only [joinLines] at ih ⊢
          rw [List.cons_append, ih]

theorem subDash_eq_of_none (s : Txt) (h : findDashIdx s = none) : subDash s = s := by
  unfold subDash
  rw [h]

theorem subLiteralCI_eq_of_none (pat s : Txt) (h : findSub pat (lowerTxt s) = none) :
    subLiteralCI pat s = s := by
  unfold subLiteralCI
  rw [h]

/- No line of the text is dropped by the quoted-reply filter. -/
def noQuotedLines (s : Txt) : Bool := (splitLines s).all keepLine

/- None of the five signature substitutions of _clean_content finds a match
   anywhere in the text. -/
def noSignatureMarkers (s : Txt) : Bool :=
  (findDashIdx s).isNone && (findSub (txt "best regards,") (lowerTxt s)).isNone &&
  (findSub (txt "sincerely,") (lowerTxt s)).isNone &&
  (findSub (txt "thank you,") (lowerTxt s)).isNone &&
  (findSub (txt "regards,") (lowerTxt s)).isNone

/-- C7 counterexample: the input consisting of the line "Hello --" followed by
the line "World" contains no line beginning with a quote marker, no line
consisting solely of two dashes and no salutation line, so by the claim the
preprocessing should preserve it; the code instead truncates at the two dashes
at the end of the first line and returns "Hello". -/
theorem c7_clean_content_counterexample :
    clean_content (txt "Hello " ++ ['-', '-'] ++ '\n' :: txt "World") = txt "Hello" ∧
    decide (clean_content (txt "Hello " ++ ['-', '-'] ++ '\n' :: txt "World")
      = txt "Hello " ++ ['-', '-'] ++ '\n' :: txt "World") = false :=
  ⟨by decide, by decide⟩

/-- C7 amended: preprocessing drops the lines whose stripped form begins with
a quote or bar marker, then truncates at the first occurrence of two dashes
followed by a whitespace run containing a newline, even at the end of a longer
line, and at the first, possibly mid-line, case-insensitive occurrence of each
salutation phrase, and finally strips surrounding whitespace; text with none
of these markers and no dropped line is preserved up to that final strip, and
two dashes not followed by a newline are preserved. -/
theorem c7_clean_content_amended :
    (∀ s : Txt, noQuotedLines s = true → noSignatureMarkers s = true →
      clean_content s = pyStrip s) ∧
    clean_content (txt "Hello " ++ ['-', '-'] ++ '\n' :: txt "World") = txt "Hello" ∧
    clean_content (txt "x\n" ++ ['-', '-'] ++ '\n' :: txt "signature line") = txt "x" ∧
    clean_content (txt "keep, Best Regards, Bob") = txt "keep," ∧
    clean_content (txt "> quoted\nkeep me") = txt "keep me" ∧
    clean_content (txt "a " ++ ['-', '-'] ++ txt " b") = txt "a " ++ ['-', '-'] ++ txt " b" := by
  refine ⟨?_, by decide, by decide, by decide, by decide, by decide⟩
  intro s h1 h2
  unfold clean_content
  have hf : (splitLines s).filter keepLine = splitLines s := by
    refine List.filter_eq_self.mpr ?_
    rw [noQuotedLines, List.all_eq_true] at h1
    exact h1
  rw [hf, joinLines_splitLines]
  dsimp only
  rw [noSignatureMarkers] at h2
  simp only [Bool.and_eq_true, Option.isNone_iff_eq_none] at h2
  obtain ⟨⟨⟨⟨hd, hbr⟩, hsi⟩, hty⟩, hre⟩ := h2
  rw [subDash_eq_of_none s hd, subLiteralCI_eq_of_none _ s hbr,
    subLiteralCI_eq_of_none _ s hsi, subLiteralCI_eq_of_none _ s hty,
    subLiteralCI_eq_of_none _ s hre]

/-- C7 amended witness: a concrete marker-free text is preserved up to the
final strip. -/
theorem c7_clean_content_amended_witness :
    noQuotedLines (txt "  need 5 Widget Pro  ") = true ∧
    noSignatureMarkers (txt "  need 5 Widget Pro  ") = true ∧
    clean_content (txt "  need 5 Widget Pro  ") = pyStrip (txt "  need 5 Widget Pro  ") :=
  ⟨by decide, by decide,
    c7_clean_content_amended.1 (txt "  need 5 Widget Pro  ") (by decide) (by decide)⟩

theorem roundHalfEvenInt_eval (x : ℚ) (n : ℤ) (h1 : (n : ℚ) ≤ x) (h2 : x - (n : ℚ) < 1/2) :
    roundHalfEvenInt x = n := by
  unfold roundHalfEvenInt
  dsimp only
  have hfl : ⌊x⌋ = n := by
    rw [Int.floor_eq_iff]
    exact ⟨h1, by linarith⟩
  rw [hfl, if_pos h2]

theorem round2_eval (x : ℚ) (n : ℤ) (h1 : (n : ℚ) ≤ x * 100) (h2 : x * 100 - (n : ℚ) < 1/2) :
    round2 x = (n : ℚ) / 100 := by
  unfold round2
  rw [roundHalfEvenInt_eval (x * 100) n h1 h2]

/- The configuration of the end-to-end scenario: the catalog carries Widget
   Pro at 25.00 per piece and the tax rate is 0.095. -/
def catalogC3 : PriceList := [(txt "Widget Pro", ⟨25, some "piece"⟩)]

def cfgC3 : QuoteConfig := ⟨19/200, "USD"⟩

def inputC3 : Txt := txt "Need 10 Widget Pro pieces, asap!"

/- The discount table as the claim words it: one 5 percent tier covering
   subtotals below 100. -/
def tiersClaimC3 : List Tier := [⟨0, some 100, 1/20⟩]

/- The discount table the claimed outputs require: a 5 percent tier whose
   half-open interval contains the actual subtotal 250. -/
def tiersAmendedC3 : List Tier := [⟨0, some 1000, 1/20⟩]

/- The parsed event the pipeline hands to the quote generator for this text:
   products from the extractor, the currency key present with the extracted
   (here absent) currency. -/
def eventC3 : ParsedEventQ :=
  ⟨"c3", extract_products catalogC3 (clean_content inputC3),
    some (extract_currency (clean_content inputC3))⟩

theorem parseDecimal_ten : parseDecimal (txt "10") = 10 := by
  rw [show parseDecimal (txt "10")
      = ((10 : ℕ) : ℚ) + ((0 : ℕ) : ℚ) / (10 : ℚ) ^ (0 : ℕ) from rfl]
  norm_num

theorem c3_subtotal_value : (25 : ℚ) * parseDecimal (txt "10") + 0 = 250 := by
  rw [parseDecimal_ten]
  norm_num

theorem c3_rate_claim_tiers :
    QuoteGenerator.calculate_discount_rate tiersClaimC3 250 = 0 := by
  norm_num [QuoteGenerator.calculate_discount_rate, QuoteGenerator.tierApplies, tiersClaimC3]

theorem c3_rate_amended_tiers :
    QuoteGenerator.calculate_discount_rate tiersAmendedC3 250 = 1/20 := by
  norm_num [QuoteGenerator.calculate_discount_rate, QuoteGenerator.tierApplies, tiersAmendedC3]

/-- C3 counterexample: on the text "Need 10 Widget Pro pieces, asap!" with the
claimed configuration (Widget Pro at 25.00, a 5 percent tier covering only
subtotals below 100, tax 0.095), the extracted mention has no unit (the word
pieces follows the product name, while the unit is read from the before
window), and the quote has discount 0 and total 273.75, not the claimed unit
"piece", discount 12.50 and total 260.06. -/
theorem c3_end_to_end_counterexample :
    (extract_products catalogC3 (clean_content inputC3)).map Mention.unit = [none] ∧
    decide ((extract_products catalogC3 (clean_content inputC3)).map Mention.unit
      = [some "piece"]) = false ∧
    (QuoteGenerator.generate catalogC3 tiersClaimC3 cfgC3 eventC3).discount = 0 ∧
    ((QuoteGenerator.generate catalogC3 tiersClaimC3 cfgC3 eventC3).discount == (25 : ℚ)/2)
      = false ∧
    (QuoteGenerator.generate catalogC3 tiersClaimC3 cfgC3 eventC3).total = 1095/4 ∧
    ((QuoteGenerator.generate catalogC3 tiersClaimC3 cfgC3 eventC3).total == (13003 : ℚ)/50)
      = false := by
  have hd : (QuoteGenerator.generate catalogC3 tiersClaimC3 cfgC3 eventC3).discount = 0 := by
    rw [show (QuoteGenerator.generate catalogC3 tiersClaimC3 cfgC3 eventC3).discount
        = round2 (((25 : ℚ) * parseDecimal (txt "10") + 0) *
            QuoteGenerator.calculate_discount_rate tiersClaimC3
              ((25 : ℚ) * parseDecimal (txt "10") + 0)) from rfl]
    rw [c3_subtotal_value, c3_rate_claim_tiers]
    rw [show (250 : ℚ) * 0 = 0 by norm_num]
    rw [round2_eval 0 0 (by norm_num) (by norm_num)]
    norm_num
  have ht : (QuoteGenerator.generate catalogC3 tiersClaimC3 cfgC3 eventC3).total = 1095/4 := by
    rw [show (QuoteGenerator.generate catalogC3 tiersClaimC3 cfgC3 eventC3).total
        = round2 (((25 : ℚ) * parseDecimal (txt "10") + 0) -
              ((25 : ℚ) * parseDecimal (txt "10") + 0) *
                QuoteGenerator.calculate_discount_rate tiersClaimC3
                  ((25 : ℚ) * parseDecimal (txt "10") + 0) +
            (((25 : ℚ) * parseDecimal (txt "10") + 0) -
              ((25 : ℚ) * parseDecimal (txt "10") + 0) *
                QuoteGenerator.calculate_discount_rate tiersClaimC3
                  ((25 : ℚ) * parseDecimal (txt "10") + 0)) * (19/200)) from rfl]
    rw [c3_subtotal_value, c3_rate_claim_tiers]
    rw [show (250 : ℚ) - 250 * 0 + (250 - 250 * 0) * (19/200) = 1095/4 by norm_num]
    rw [round2_eval (1095/4) 27375 (by norm_num) (by norm_num)]
    norm_num
  refine ⟨by decide, by decide, hd, ?_, ht, ?_⟩
  · rw [hd]
    exact beq_eq_false_iff_ne.mpr (by norm_num)
  · rw [ht]
    exact beq_eq_false_iff_ne.mpr (by norm_num)

/-- C3 amended: on the text "Need 10 Widget Pro pieces, asap!" with Widget Pro
at 25.00 per piece, tax 0.095 and a 5 percent tier whose interval contains the
subtotal 250.00, the extractor yields exactly one mention with name Widget
Pro, quantity 10 and no unit (the unit keyword follows the product name while
the unit is read from the before window); urgency is "high"; the quote is
complete with the line item carrying the catalog unit "piece", subtotal
250.00, discount 12.50, tax 22.56 and total 260.06. -/
theorem c3_end_to_end_amended :
    (extract_products catalogC3 (clean_content inputC3)).map Mention.name
      = [txt "Widget Pro"] ∧
    (extract_products catalogC3 (clean_content inputC3)).map Mention.quantity = [some 10] ∧
    (extract_products catalogC3 (clean_content inputC3)).map Mention.unit = [none] ∧
    extract_urgency (clean_content inputC3) = some "high" ∧
    (QuoteGenerator.generate catalogC3 tiersAmendedC3 cfgC3 eventC3).status = "complete" ∧
    (QuoteGenerator.generate catalogC3 tiersAmendedC3 cfgC3 eventC3).line_items
      = [⟨txt "Widget Pro", 10, 25, 250, "piece"⟩] ∧
    (QuoteGenerator.generate catalogC3 tiersAmendedC3 cfgC3 eventC3).subtotal = 250 ∧
    (QuoteGenerator.generate catalogC3 tiersAmendedC3 cfgC3 eventC3).discount = 25/2 ∧
    (QuoteGenerator.generate catalogC3 tiersAmendedC3 cfgC3 eventC3).tax = 564/25 ∧
    (QuoteGenerator.generate catalogC3 tiersAmendedC3 cfgC3 eventC3).total = 13003/50 := by
  refine ⟨by decide, ?_, by decide, by decide, rfl, ?_, ?_, ?_, ?_, ?_⟩
  · rw [show (extract_products catalogC3 (clean_content inputC3)).map Mention.quantity
        = [some (parseDecimal (txt "10"))] from rfl]
    rw [parseDecimal_ten]
  · rw [show (QuoteGenerator.generate catalogC3 tiersAmendedC3 cfgC3 eventC3).line_items
        = [⟨txt "Widget Pro", parseDecimal (txt "10"), 25,
            25 * parseDecimal (txt "10"), "piece"⟩] from rfl]
    rw [parseDecimal_ten]
    norm_num
  · rw [show (QuoteGenerator.generate catalogC3 tiersAmendedC3 cfgC3 eventC3).subtotal
        = round2 ((25 : ℚ) * parseDecimal (txt "10") + 0) from rfl]
    rw [c3_subtotal_value, round2_eval 250 25000 (by norm_num) (by norm_num)]
    norm_num
  · rw [show (QuoteGenerator.generate catalogC3 tiersAmendedC3 cfgC3 eventC3).discount
        = round2 (((25 : ℚ) * parseDecimal (txt "10") + 0) *
            QuoteGenerator.calculate_discount_rate tiersAmendedC3
              ((25 : ℚ) * parseDecimal (txt "10") + 0)) from rfl]
    rw [c3_subtotal_value, c3_rate_amended_tiers]
    rw [show (250 : ℚ) * (1/20) = 25/2 by norm_num]
    rw [round2_eval (25/2) 1250 (by norm_num) (by norm_num)]
    norm_num
  · rw [show (QuoteGenerator.generate catalogC3 tiersAmendedC3 cfgC3 eventC3).tax
        = round2 ((((25 : ℚ) * parseDecimal (txt "10") + 0) -
              ((25 : ℚ) * parseDecimal (txt "10") + 0) *
                QuoteGenerator.calculate_discount_rate tiersAmendedC3
                  ((25 : ℚ) * parseDecimal (txt "10") + 0)) * (19/200)) from rfl]
    rw [c3_subtotal_value, c3_rate_amended_tiers]
    rw [show ((250 : ℚ) - 250 * (1/20)) * (19/200) = 361/16 by norm_num]
    rw [round2_eval (361/16) 2256 (by norm_num) (by norm_num)]
    norm_num
  · rw [show (QuoteGenerator.generate catalogC3 tiersAmendedC3 cfgC3 eventC3).total
        = round2 (((25 : ℚ) * parseDecimal (txt "10") + 0) -
              ((25 : ℚ) * parseDecimal (txt "10") + 0) *
                QuoteGenerator.calculate_discount_rate tiersAmendedC3
                  ((25 : ℚ) * parseDecimal (txt "10") + 0) +
            (((25 : ℚ) * parseDecimal (txt "10") + 0) -
              ((25 : ℚ) * parseDecimal (txt "10") + 0) *
                QuoteGenerator.calculate_discount_rate tiersAmendedC3
                  ((25 : ℚ) * parseDecimal (txt "10") + 0)) * (19/200)) from rfl]
    rw [c3_subtotal_value, c3_rate_amended_tiers]
    rw [show (250 : ℚ) - 250 * (1/20) + ((250 : ℚ) - 250 * (1/20)) * (19/200)
        = 4161/16 by norm_num]
    rw [round2_eval (4161/16) 26006 (by norm_num) (by norm_num)]
    norm_num
